import Mathlib

/-!
Shallow embedding of the F1 ETL pipeline:
  - create_tyre_changes.py  (tyre-change derivation per session/driver)
  - load_f1_functional.py / load_f1.py  (transform: result status, driver identity)
  - update_f1_data.py  (incremental update: safe_append, early return)

Conventions of the embedding:
  - machine integers are modelled as Int; timestamps as Int (merge keys are
    only ever compared, so any linearly ordered carrier is faithful);
  - pandas float columns that may hold NaN are modelled as Option Rat with
    none standing for NaN/undefined (a NaN written back through to_sql is a
    SQL NULL); a pandas mean over an empty or all-NaN selection is NaN,
    modelled as none here, and arithmetic on NaN propagates NaN, modelled
    by the Option matches below;
  - the scripts operate per session and group by driver_number; every claim
    in scope is per driver, so the deriver is embedded as a function of one
    driver data slice (stints, laps, position samples of that driver in the
    session), which is exactly what the grouped pandas code computes.
-/

/-- Row of the stints table relevant to the deriver
(create_tyre_changes.py reads stint_number, lap_start, lap_end, compound). -/
structure Stint where
  stint_number : Int
  lap_start : Int
  lap_end : Int
  compound : String
deriving DecidableEq, Repr

/-- Row of the laps table relevant to the deriver: lap_number (cast to int),
date_start (timestamp), lap_duration (float, NaN possible). -/
structure Lap where
  lap_number : Int
  date_start : Int
  lap_duration : Option Rat
deriving DecidableEq, Repr

/-- Row of the position table relevant to the deriver: date (timestamp)
and running position. -/
structure PosPoint where
  date : Int
  position : Int
deriving DecidableEq, Repr

/-- One row of positions_with_lap = pd.merge_asof(laps, position, ...):
the lap row together with the backward-matched position sample
(none when no position sample at or before date_start exists, i.e. NaN). -/
structure Sample where
  lap_number : Int
  position : Option Int
deriving DecidableEq, Repr

/-- One record appended to change_records in create_tyre_changes.py. -/
structure TyreChangeRec where
  driver : Int
  change_type : String
  tyre_change_lap : Int
  laps_on_old_tyre : Int
  laps_on_new_tyre : Int
  pos_before : Option Rat
  pos_after : Option Rat
  position_change : Option Rat
  lap_time_change : Option Rat
deriving DecidableEq, Repr

/-- Stable insertion of x into a list sorted by key (ties keep the existing
element first, matching the stable sort of pandas sort_values). -/
def insSorted {α : Type} (key : α → Int) (x : α) : List α → List α
  | [] => [x]
  | y :: ys => if key x < key y then x :: y :: ys else y :: insSorted key x ys

/-- Stable sort by an integer key (pandas sort_values). -/
def sortByKey {α : Type} (key : α → Int) (l : List α) : List α :=
  l.foldl (fun acc x => insSorted key x acc) []

/-- pd.merge_asof(laps.sort_values(date_start), position.sort_values(date),
left_on=date_start, right_on=date, direction=backward): one output row per
lap row, carrying the last position sample (in date order) with
date <= date_start, or NaN when there is none. -/
def mergeAsof (laps : List Lap) (points : List PosPoint) : List Sample :=
  let ps := sortByKey (fun p => p.date) points
  (sortByKey (fun l => l.date_start) laps).map (fun l =>
    { lap_number := l.lap_number
      position := ((ps.filter (fun p => decide (p.date ≤ l.date_start))).getLast?).map
        (fun p => p.position) })

/-- driver_laps.lap_number.min() (only used when driver_laps is nonempty). -/
def lapsMin (samples : List Sample) : Int :=
  match samples with
  | [] => 0
  | s :: rest => rest.foldl (fun a t => min a t.lap_number) s.lap_number

/-- driver_laps.lap_number.max() (only used when driver_laps is nonempty). -/
def lapsMax (samples : List Sample) : Int :=
  match samples with
  | [] => 0
  | s :: rest => rest.foldl (fun a t => max a t.lap_number) s.lap_number

/-- The non-NaN position values of the merged rows whose lap_number lies in
[lo, hi]: the values a pandas mean over that window actually averages
(pandas mean skips NaN). -/
def winVals (samples : List Sample) (lo hi : Int) : List Int :=
  (samples.filter (fun s => decide (lo ≤ s.lap_number ∧ s.lap_number ≤ hi))).filterMap
    (fun s => s.position)

/-- Arithmetic mean of a list of integers as a rational. -/
def meanQ (vals : List Int) : Rat :=
  (vals.map (fun v => (v : Rat))).sum / (vals.length : Rat)

/-- driver_laps[window]["position"].mean(): NaN (none) when the window holds
no non-NaN sample, else the mean of the non-NaN samples. -/
def winMean (samples : List Sample) (lo hi : Int) : Option Rat :=
  let vals := winVals samples lo hi
  if vals.isEmpty then none else some (meanQ vals)

/-- The non-NaN lap_duration values of the lap rows with lap_number
in [lo, hi]. -/
def durVals (laps : List Lap) (lo hi : Int) : List Rat :=
  (laps.filter (fun l => decide (lo ≤ l.lap_number ∧ l.lap_number ≤ hi))).filterMap
    (fun l => l.lap_duration)

/-- laps[window]["lap_duration"].mean() with NaN as none. -/
def durMean (laps : List Lap) (lo hi : Int) : Option Rat :=
  let vals := durVals laps lo hi
  if vals.isEmpty then none else some (vals.sum / (vals.length : Rat))

/-- The nine compound transitions kept by the deriver (valid_types). -/
def validTypes : List String :=
  ["SOFT->MEDIUM", "MEDIUM->HARD", "HARD->SOFT",
   "SOFT->HARD", "MEDIUM->SOFT", "HARD->MEDIUM",
   "SOFT->SOFT", "MEDIUM->MEDIUM", "HARD->HARD"]

/-- The record the loop body of create_tyre_changes.py appends for the
adjacent stint pair (old, new), given the driver, the driver lap rows and
the merged samples.  In the source, pos_before and pos_after are floats
(NaN when their window mean is empty), so the guard
`pos_before is None or pos_after is None` never fires; position_change is
NaN exactly when either operand is NaN, which the Option match reproduces.
Likewise lap_time_change is set only when both duration means are non-NaN
(pd.notnull). -/
def mkChangeRec (driver : Int) (laps : List Lap) (samples : List Sample)
    (old new : Stint) : TyreChangeRec :=
  let change_type := old.compound ++ "->" ++ new.compound
  let tyre_change_lap := old.lap_end
  let min_lap := lapsMin samples
  let max_lap := lapsMax samples
  let before_start := max (tyre_change_lap - 1) min_lap
  let before_end := min tyre_change_lap max_lap
  let after_start := max (tyre_change_lap + 2) min_lap
  let after_end := min (tyre_change_lap + 5) max_lap
  let pos_before := winMean samples before_start before_end
  let pos_after := winMean samples after_start after_end
  let before_laps := durMean laps (tyre_change_lap - 1) tyre_change_lap
  let after_laps := durMean laps (tyre_change_lap + 2) (tyre_change_lap + 5)
  { driver := driver
    change_type := change_type
    tyre_change_lap := tyre_change_lap
    laps_on_old_tyre := old.lap_end - old.lap_start + 1
    laps_on_new_tyre := min 5 (new.lap_end - new.lap_start + 1)
    pos_before := pos_before
    pos_after := pos_after
    position_change :=
      match pos_before, pos_after with
      | some b, some a => some (a - b)
      | _, _ => none
    lap_time_change :=
      match before_laps, after_laps with
      | some b, some a => some (a - b)
      | _, _ => none }

/-- Body of the inner loop of create_tyre_changes.py for one adjacent stint
pair (old, new): none when the pair is skipped by a continue (invalid
change_type, or empty driver_laps), some record when a row is appended. -/
def processPair (driver : Int) (laps : List Lap) (samples : List Sample)
    (old new : Stint) : Option TyreChangeRec :=
  if old.compound ++ "->" ++ new.compound ∈ validTypes then
    if samples.isEmpty then none
    else some (mkChangeRec driver laps samples old new)
  else none

/-- Adjacent pairs (row i, row i+1) of a list. -/
def adjPairs {α : Type} (l : List α) : List (α × α) :=
  l.zip l.tail

/-- The records emitted for one driver of one session by
create_tyre_changes.py: sort the stints of the driver by stint_number,
walk adjacent pairs, and keep the rows processPair emits.  laps and points
are the rows of the laps and position tables for this driver and session
(merge_asof matches by driver_number, so the per-driver slice is exact). -/
def deriveDriver (driver : Int) (stints : List Stint) (laps : List Lap)
    (points : List PosPoint) : List TyreChangeRec :=
  let samples := mergeAsof laps points
  (adjPairs (sortByKey (fun s => s.stint_number) stints)).filterMap
    (fun pr => processPair driver laps samples pr.1 pr.2)

/-! ### Transformer: result status derivation (load_f1_functional.py 316-332,
load_f1.py 316-331) -/

/-- The dnf/dns/dsq flags of one raw session_result row. -/
structure ResultRow where
  dnf : Bool
  dns : Bool
  dsq : Bool
deriving DecidableEq, Repr

/-- The status value the transform computes for one row, written exactly as
the three sequential column overwrites of the source: default finish,
overwritten by dnf, then by dns, then by dsq. -/
def deriveStatus (dnf dns dsq : Bool) : String :=
  let s1 := if dnf then "dnf" else "finish"
  let s2 := if dns then "dns" else s1
  if dsq then "dsq" else s2

/-- Modelled from the spec: status resolved with precedence
dsq > dns > dnf > finish, for comparison with deriveStatus. -/
def specStatus (dnf dns dsq : Bool) : String :=
  if dsq then "dsq" else if dns then "dns" else if dnf then "dnf" else "finish"

/-- The status column of the intermediate results frame after the three
overwrite statements. -/
def statusColumn (rows : List ResultRow) : List String :=
  rows.map (fun r => deriveStatus r.dnf r.dns r.dsq)

/-- The column list results_clean selects from the results frame
(verbatim from the source; note there is no "status" entry). -/
def resultsCleanColumns : List String :=
  ["session_key", "position", "driver_number", "number_of_laps", "points",
   "duration", "gap_to_leader", "dnf", "dns", "dsq"]

/-! ### Transformer: driver identity resolution (load_f1_functional.py
267-290, load_f1.py 278-294) -/

/-- The name triple of one row of drivers_clean. -/
structure DriverName where
  full_name : String
  broadcast_name : String
  name_acronym : String
deriving DecidableEq, Repr

/-- The whitespace normalization applied to the three name columns
(pandas str.strip). -/
def trimName (d : DriverName) : DriverName :=
  { full_name := d.full_name.trim
    broadcast_name := d.broadcast_name.trim
    name_acronym := d.name_acronym.trim }

/-- pandas drop_duplicates with default keep=first: keep the first
occurrence of each value, preserving row order. -/
def dedupFirst {α : Type} [DecidableEq α] : List α → List α
  | [] => []
  | x :: xs => x :: (dedupFirst xs).filter (fun y => decide (y ≠ x))

/-- Modelled from the spec: collapse to distinct tuples listed in
first-occurrence order, for comparison with dedupFirst. -/
def specFirstOccur {α : Type} [DecidableEq α] (l : List α) : List α :=
  l.foldl (fun acc t => if t ∈ acc then acc else acc ++ [t]) []

/-- drivers_identity: strip the name columns, drop duplicate triples
(keep first), and assign driver_id = positional index + 1. -/
def driversIdentity (rows : List DriverName) : List (DriverName × Nat) :=
  let distinct := dedupFirst (rows.map trimName)
  distinct.zip (List.range' 1 distinct.length)

/-! ### Incremental update (update_f1_data.py) -/

/-- Lines 139-143 of update_f1_data.py: the primary keys read back from
the table, with any read exception collapsed to an empty key frame. -/
def existingKeysOf {K : Type} (res : Except String (List K)) : List K :=
  match res with
  | .ok ks => ks
  | .error _ => []

/-- Lines 146-147: the rows of df whose primary key is not among the
existing keys (merge indicator left_only), in df order. -/
def safeAppendNewRows {Row K : Type} [DecidableEq K] (key : Row → K)
    (existingKeys : List K) (df : List Row) : List Row :=
  df.filter (fun r => decide (key r ∉ existingKeys))

/-- safe_append seen from the key-read result: on a read failure the rows
kept for insertion are computed against no existing keys. -/
def safeAppendWithRead {Row K : Type} [DecidableEq K] (key : Row → K)
    (readResult : Except String (List K)) (df : List Row) : List Row :=
  safeAppendNewRows key (existingKeysOf readResult) df

/-- The table contents after safe_append: existing rows untouched, new
rows appended at the end (to_sql if_exists=append). -/
def safeAppendTable {Row K : Type} [DecidableEq K] (key : Row → K)
    (table df : List Row) : List Row :=
  table ++ safeAppendNewRows key (table.map key) df

/-- get_new_sessions: race sessions whose session_key is not yet in the
database (~isin(existing_session_keys)). -/
def getNewRace (upstreamRaceKeys existing : List Int) : List Int :=
  upstreamRaceKeys.filter (fun k => decide (k ∉ existing))

/-- Result of one update_f1_data run: the database afterwards and whether
the create_tyre_changes.py subprocess was launched. -/
structure UpdateOutcome (δ : Type) where
  db : δ
  ranTyreDeriver : Bool
deriving Repr

/-- Control flow of update_f1_data (lines 190-233): read existing session
keys, compute the new race sessions, and return untouched when none are
new; otherwise extract, transform and append the new slice
(loadAndAppend, network and transform abstracted) and then rerun the
tyre-change deriver, which drops and rebuilds the tyre_changes table
(recomputeTyreChanges). -/
def updateF1Data {δ : Type} (getExisting : δ → List Int)
    (loadAndAppend : δ → List Int → δ) (recomputeTyreChanges : δ → δ)
    (db : δ) (upstreamRaceKeys : List Int) : UpdateOutcome δ :=
  let newRace := getNewRace upstreamRaceKeys (getExisting db)
  if newRace.isEmpty then { db := db, ranTyreDeriver := false }
  else { db := recomputeTyreChanges (loadAndAppend db newRace), ranTyreDeriver := true }

/-! ### Concrete inputs used by closed theorems and witnesses -/

/-- Stints of the end-to-end scenario: SOFT laps 1-20, MEDIUM laps 21-40. -/
def scenarioStints : List Stint :=
  [{ stint_number := 1, lap_start := 1, lap_end := 20, compound := "SOFT" },
   { stint_number := 2, lap_start := 21, lap_end := 40, compound := "MEDIUM" }]

/-- Lap rows 1-40 of the scenario driver. -/
def scenarioLaps : List Lap :=
  (List.range 40).map (fun i =>
    { lap_number := (i : Int) + 1, date_start := 100 * ((i : Int) + 1),
      lap_duration := some 90 })

/-- Position samples present for laps 1-40 (one sample at each lap start). -/
def scenarioPoints : List PosPoint :=
  (List.range 40).map (fun i => { date := 100 * ((i : Int) + 1), position := 5 })

/-- Stints of a driver who has lap rows but no position samples. -/
def noPosStints : List Stint :=
  [{ stint_number := 1, lap_start := 1, lap_end := 2, compound := "SOFT" },
   { stint_number := 2, lap_start := 3, lap_end := 4, compound := "MEDIUM" }]

/-- Lap rows of that driver. -/
def noPosLaps : List Lap :=
  [{ lap_number := 1, date_start := 100, lap_duration := some 90 },
   { lap_number := 2, date_start := 200, lap_duration := some 91 }]

/-- Small stint table used by witnesses: SOFT laps 1-2, then MEDIUM 3-4. -/
def wStints : List Stint :=
  [{ stint_number := 1, lap_start := 1, lap_end := 2, compound := "SOFT" },
   { stint_number := 2, lap_start := 3, lap_end := 4, compound := "MEDIUM" }]

/-- Lap rows 1-4 used by witnesses. -/
def wLaps : List Lap :=
  [{ lap_number := 1, date_start := 100, lap_duration := some 90 },
   { lap_number := 2, date_start := 200, lap_duration := some 91 },
   { lap_number := 3, date_start := 300, lap_duration := some 92 },
   { lap_number := 4, date_start := 400, lap_duration := some 93 }]

/-- Position samples for laps 1-4 used by witnesses. -/
def wPoints : List PosPoint :=
  [{ date := 100, position := 5 }, { date := 200, position := 5 },
   { date := 300, position := 6 }, { date := 400, position := 6 }]

/-- Driver rows with a duplicate (after trimming) triple, used by the
driver-identity witness. -/
def wNames : List DriverName :=
  [{ full_name := " Max Verstappen ", broadcast_name := "M VERSTAPPEN",
     name_acronym := "VER" },
   { full_name := "Max Verstappen", broadcast_name := "M VERSTAPPEN",
     name_acronym := "VER" },
   { full_name := "Lewis Hamilton", broadcast_name := "L HAMILTON",
     name_acronym := "HAM" }]

/-- The single record the deriver emits for wStints/wLaps/wPoints. -/
def wRec : TyreChangeRec :=
  mkChangeRec 7 wLaps (mergeAsof wLaps wPoints)
    { stint_number := 1, lap_start := 1, lap_end := 2, compound := "SOFT" }
    { stint_number := 2, lap_start := 3, lap_end := 4, compound := "MEDIUM" }

/-- Position samples covering only laps 1-2, so the after window of a
change at lap 2 is empty. -/
def w4Points : List PosPoint :=
  [{ date := 100, position := 5 }, { date := 200, position := 4 }]

/-- The single record the deriver emits for noPosStints/noPosLaps/w4Points. -/
def wRec4 : TyreChangeRec :=
  mkChangeRec 9 noPosLaps (mergeAsof noPosLaps w4Points)
    { stint_number := 1, lap_start := 1, lap_end := 2, compound := "SOFT" }
    { stint_number := 2, lap_start := 3, lap_end := 4, compound := "MEDIUM" }

/-- The single record the deriver emits for noPosStints/noPosLaps with an
empty position table. -/
def wRec3 : TyreChangeRec :=
  mkChangeRec 7 noPosLaps (mergeAsof noPosLaps [])
    { stint_number := 1, lap_start := 1, lap_end := 2, compound := "SOFT" }
    { stint_number := 2, lap_start := 3, lap_end := 4, compound := "MEDIUM" }

/-! ### Helper lemmas about the deriver -/

lemma mergeAsof_laps_nil (points : List PosPoint) : mergeAsof [] points = [] := rfl

lemma mergeAsof_points_nil (laps : List Lap) :
    mergeAsof laps [] = (sortByKey (fun l => l.date_start) laps).map
      (fun l => { lap_number := l.lap_number, position := none }) := rfl

lemma processPair_eq_some {driver : Int} {laps : List Lap} {samples : List Sample}
    {old new : Stint} {rec : TyreChangeRec}
    (h : processPair driver laps samples old new = some rec) :
    old.compound ++ "->" ++ new.compound ∈ validTypes ∧ samples ≠ [] ∧
      rec = mkChangeRec driver laps samples old new := by
  unfold processPair at h
  split at h
  · split at h
    · exact absurd h (by simp)
    · rename_i hv he
      refine ⟨hv, by simpa [List.isEmpty_iff] using he, (Option.some.inj h).symm⟩
  · exact absurd h (by simp)

lemma mem_deriveDriver {driver : Int} {stints : List Stint} {laps : List Lap}
    {points : List PosPoint} {rec : TyreChangeRec} :
    rec ∈ deriveDriver driver stints laps points ↔
      ∃ pr, pr ∈ adjPairs (sortByKey (fun s => s.stint_number) stints) ∧
        processPair driver laps (mergeAsof laps points) pr.1 pr.2 = some rec := by
  simp [deriveDriver, List.mem_filterMap]

lemma mkChangeRec_tyre_change_lap (driver : Int) (laps : List Lap)
    (samples : List Sample) (old new : Stint) :
    (mkChangeRec driver laps samples old new).tyre_change_lap = old.lap_end := rfl

lemma mkChangeRec_pos_before (driver : Int) (laps : List Lap)
    (samples : List Sample) (old new : Stint) :
    (mkChangeRec driver laps samples old new).pos_before =
      winMean samples (max (old.lap_end - 1) (lapsMin samples))
        (min old.lap_end (lapsMax samples)) := rfl

lemma mkChangeRec_pos_after (driver : Int) (laps : List Lap)
    (samples : List Sample) (old new : Stint) :
    (mkChangeRec driver laps samples old new).pos_after =
      winMean samples (max (old.lap_end + 2) (lapsMin samples))
        (min (old.lap_end + 5) (lapsMax samples)) := rfl

lemma mkChangeRec_position_change (driver : Int) (laps : List Lap)
    (samples : List Sample) (old new : Stint) :
    (mkChangeRec driver laps samples old new).position_change =
      match winMean samples (max (old.lap_end - 1) (lapsMin samples))
              (min old.lap_end (lapsMax samples)),
            winMean samples (max (old.lap_end + 2) (lapsMin samples))
              (min (old.lap_end + 5) (lapsMax samples)) with
      | some b, some a => some (a - b)
      | _, _ => none := rfl

lemma winMean_of_ne_nil {samples : List Sample} {lo hi : Int}
    (h : winVals samples lo hi ≠ []) :
    winMean samples lo hi = some (meanQ (winVals samples lo hi)) := by
  simp [winMean, List.isEmpty_iff, h]

lemma winMean_of_nil {samples : List Sample} {lo hi : Int}
    (h : winVals samples lo hi = []) : winMean samples lo hi = none := by
  simp [winMean, h]

/-! ### Helper lemmas about dedupFirst and specFirstOccur -/

lemma mem_dedupFirst {α : Type} [DecidableEq α] {a : α} {l : List α} :
    a ∈ dedupFirst l ↔ a ∈ l := by
  induction l with
  | nil => simp [dedupFirst]
  | cons x xs ih =>
    by_cases hax : a = x
    · subst hax
      simp [dedupFirst]
    · simp [dedupFirst, List.mem_filter, ih, hax]

lemma nodup_dedupFirst {α : Type} [DecidableEq α] (l : List α) :
    (dedupFirst l).Nodup := by
  induction l with
  | nil => simp [dedupFirst]
  | cons x xs ih =>
    refine List.Nodup.cons ?_ (ih.filter _)
    intro hmem
    have := (List.mem_filter.mp hmem).2
    simp at this

lemma dedupFirst_filter {α : Type} [DecidableEq α] (p : α → Bool) (l : List α) :
    dedupFirst (l.filter p) = (dedupFirst l).filter p := by
  induction l with
  | nil => rfl
  | cons x xs ih =>
    by_cases hp : p x
    · rw [List.filter_cons_of_pos hp]
      show x :: (dedupFirst (xs.filter p)).filter (fun y => decide (y ≠ x)) = _
      rw [ih]
      show _ = (x :: (dedupFirst xs).filter (fun y => decide (y ≠ x))).filter p
      rw [List.filter_cons_of_pos hp, List.filter_filter, List.filter_filter]
      congr 1
      apply List.filter_congr
      intro a _
      exact Bool.and_comm _ _
    · rw [List.filter_cons_of_neg hp]
      rw [ih]
      show _ = (x :: (dedupFirst xs).filter (fun y => decide (y ≠ x))).filter p
      rw [List.filter_cons_of_neg hp, List.filter_filter]
      apply List.filter_congr
      intro a _
      by_cases hpa : p a
      · have hne : a ≠ x := by
          intro h
          rw [h] at hpa
          exact hp hpa
        simp [hpa, hne]
      · simp [hpa]

lemma specFirstOccur_go {α : Type} [DecidableEq α] (l acc : List α) :
    l.foldl (fun acc t => if t ∈ acc then acc else acc ++ [t]) acc
      = acc ++ dedupFirst (l.filter (fun t => decide (t ∉ acc))) := by
  induction l generalizing acc with
  | nil => simp [dedupFirst]
  | cons x xs ih =>
    rw [List.foldl_cons]
    by_cases hx : x ∈ acc
    · rw [if_pos hx, ih, List.filter_cons_of_neg (by simp [hx])]
    · rw [if_neg hx, ih, List.filter_cons_of_pos (by simp [hx])]
      show _ = acc ++ (x :: (dedupFirst (xs.filter (fun t => decide (t ∉ acc)))).filter
        (fun y => decide (y ≠ x)))
      rw [List.append_assoc]
      congr 1
      show [x] ++ _ = _
      rw [List.singleton_append]
      congr 1
      rw [← dedupFirst_filter]
      congr 1
      rw [List.filter_filter]
      apply List.filter_congr
      intro a _
      simp [List.mem_append, not_or, Bool.and_comm]

lemma specFirstOccur_eq_dedupFirst {α : Type} [DecidableEq α] (l : List α) :
    specFirstOccur l = dedupFirst l := by
  show l.foldl (fun acc t => if t ∈ acc then acc else acc ++ [t]) []
    = dedupFirst l
  rw [specFirstOccur_go]
  simp

/-! ### Claim theorems -/

/-- Claim C1: for every emitted tyre-change record, the pos_before averaging
window over the merged per-lap position data of the driver is
[max(change_lap-1, driver_min_lap), min(change_lap, driver_max_lap)] and the
pos_after window is [max(change_lap+2, driver_min_lap),
min(change_lap+5, driver_max_lap)], where driver_min_lap and driver_max_lap
are the observed lap range of the driver; with change_lap = 1 and
driver_min_lap = 1 the window start clamps to 1. -/
theorem tyre_change_position_windows (driver : Int) (stints : List Stint)
    (laps : List Lap) (points : List PosPoint) (rec : TyreChangeRec)
    (hmem : rec ∈ deriveDriver driver stints laps points) :
    rec.pos_before =
      winMean (mergeAsof laps points)
        (max (rec.tyre_change_lap - 1) (lapsMin (mergeAsof laps points)))
        (min rec.tyre_change_lap (lapsMax (mergeAsof laps points))) ∧
    rec.pos_after =
      winMean (mergeAsof laps points)
        (max (rec.tyre_change_lap + 2) (lapsMin (mergeAsof laps points)))
        (min (rec.tyre_change_lap + 5) (lapsMax (mergeAsof laps points))) ∧
    (rec.tyre_change_lap = 1 → lapsMin (mergeAsof laps points) = 1 →
      max (rec.tyre_change_lap - 1) (lapsMin (mergeAsof laps points)) = 1) := by
  obtain ⟨pr, hpr, hsome⟩ := mem_deriveDriver.mp hmem
  obtain ⟨hv, hne, rfl⟩ := processPair_eq_some hsome
  refine ⟨rfl, rfl, ?_⟩
  intro h1 h2
  rw [h1, h2]
  decide

/-- Witness for C1 at a concrete driver data slice. -/
theorem tyre_change_position_windows_witness :
    wRec ∈ deriveDriver 7 wStints wLaps wPoints ∧
    wRec.pos_before = winMean (mergeAsof wLaps wPoints)
        (max (wRec.tyre_change_lap - 1) (lapsMin (mergeAsof wLaps wPoints)))
        (min wRec.tyre_change_lap (lapsMax (mergeAsof wLaps wPoints))) := by
  have hmem : wRec ∈ deriveDriver 7 wStints wLaps wPoints := by
    have h : deriveDriver 7 wStints wLaps wPoints = [wRec] := rfl
    rw [h]
    exact List.mem_singleton.mpr rfl
  exact ⟨hmem, (tyre_change_position_windows 7 wStints wLaps wPoints wRec hmem).1⟩

/-- Claim C2: for a session in which the stint table of a driver is exactly
SOFT laps 1-20 followed by MEDIUM laps 21-40, with lap and position data
present for laps 1-40, the deriver emits exactly one record, with
change_type SOFT->MEDIUM, tyre_change_lap 20, laps_on_old_tyre 20 and
laps_on_new_tyre 5 (capped at 5). -/
theorem tyre_change_scenario :
    (deriveDriver 1 scenarioStints scenarioLaps scenarioPoints).length = 1 ∧
    (deriveDriver 1 scenarioStints scenarioLaps scenarioPoints).head?.map
      (fun r => (r.change_type, r.tyre_change_lap, r.laps_on_old_tyre,
        r.laps_on_new_tyre)) = some ("SOFT->MEDIUM", 20, 20, 5) :=
  ⟨rfl, rfl⟩

/-- Counterexample to claim C3: a driver with lap rows but not a single
position sample in the position table of the session still produces a
tyre-change row (with null position aggregates), because the merge with the
position table is a left join on laps, so driver_laps is nonempty whenever
the driver has lap rows. -/
theorem no_position_samples_still_emits :
    (deriveDriver 7 noPosStints noPosLaps []).length = 1 ∧
    (deriveDriver 7 noPosStints noPosLaps []).head?.map
      (fun r => (r.pos_before, r.pos_after, r.position_change)) =
      some (none, none, none) :=
  ⟨rfl, rfl⟩

/-- Claim C3 (amended): the deriver skips all transitions of a driver only
when the driver has no rows in the merged laps frame, i.e. no lap rows; a
driver with lap rows but no position samples still yields rows, whose
pos_before, pos_after and position_change are all null. -/
theorem tyre_change_skip_semantics (driver : Int) (stints : List Stint)
    (laps : List Lap) (points : List PosPoint) :
    (laps = [] → deriveDriver driver stints laps points = []) ∧
    (∀ rec ∈ deriveDriver driver stints laps [],
      rec.pos_before = none ∧ rec.pos_after = none ∧
        rec.position_change = none) := by
  constructor
  · rintro rfl
    refine List.filterMap_eq_nil_iff.mpr ?_
    intro pr _
    show processPair driver [] (mergeAsof [] points) pr.1 pr.2 = none
    rw [mergeAsof_laps_nil]
    unfold processPair
    split <;> rfl
  · intro rec hmem
    obtain ⟨pr, hpr, hsome⟩ := mem_deriveDriver.mp hmem
    obtain ⟨hv, hne, rfl⟩ := processPair_eq_some hsome
    have hall : ∀ s ∈ mergeAsof laps [], s.position = none := by
      intro s hs
      rw [mergeAsof_points_nil] at hs
      obtain ⟨l, _, rfl⟩ := List.mem_map.mp hs
      rfl
    have hwv : ∀ lo hi, winVals (mergeAsof laps []) lo hi = [] := by
      intro lo hi
      refine List.filterMap_eq_nil_iff.mpr ?_
      intro s hs
      exact hall s (List.mem_of_mem_filter hs)
    refine ⟨?_, ?_, ?_⟩
    · rw [mkChangeRec_pos_before, winMean_of_nil (hwv _ _)]
    · rw [mkChangeRec_pos_after, winMean_of_nil (hwv _ _)]
    · rw [mkChangeRec_position_change, winMean_of_nil (hwv _ _),
        winMean_of_nil (hwv _ _)]

/-- Witness for the amended C3 at concrete inputs. -/
theorem tyre_change_skip_semantics_witness :
    deriveDriver 7 noPosStints [] [] = [] ∧ wRec3.pos_before = none := by
  constructor
  · exact (tyre_change_skip_semantics 7 noPosStints [] []).1 rfl
  · have hmem : wRec3 ∈ deriveDriver 7 noPosStints noPosLaps [] := by
      have h : deriveDriver 7 noPosStints noPosLaps [] = [wRec3] := rfl
      rw [h]
      exact List.mem_singleton.mpr rfl
    exact ((tyre_change_skip_semantics 7 noPosStints noPosLaps []).2 wRec3 hmem).1

/-- Claim C4: for every emitted record, position_change is the difference
pos_after - pos_before of the two window means when both windows contain at
least one underlying (non-null) position sample, and is null, never zero,
when either window contains none. -/
theorem position_change_semantics (driver : Int) (stints : List Stint)
    (laps : List Lap) (points : List PosPoint) (rec : TyreChangeRec)
    (hmem : rec ∈ deriveDriver driver stints laps points) :
    (winVals (mergeAsof laps points)
        (max (rec.tyre_change_lap - 1) (lapsMin (mergeAsof laps points)))
        (min rec.tyre_change_lap (lapsMax (mergeAsof laps points))) ≠ [] →
     winVals (mergeAsof laps points)
        (max (rec.tyre_change_lap + 2) (lapsMin (mergeAsof laps points)))
        (min (rec.tyre_change_lap + 5) (lapsMax (mergeAsof laps points))) ≠ [] →
     ∃ b a, rec.pos_before = some b ∧ rec.pos_after = some a ∧
       rec.position_change = some (a - b)) ∧
    ((winVals (mergeAsof laps points)
        (max (rec.tyre_change_lap - 1) (lapsMin (mergeAsof laps points)))
        (min rec.tyre_change_lap (lapsMax (mergeAsof laps points))) = [] ∨
      winVals (mergeAsof laps points)
        (max (rec.tyre_change_lap + 2) (lapsMin (mergeAsof laps points)))
        (min (rec.tyre_change_lap + 5) (lapsMax (mergeAsof laps points))) = []) →
     rec.position_change = none) := by
  obtain ⟨pr, hpr, hsome⟩ := mem_deriveDriver.mp hmem
  obtain ⟨hv, hne, rfl⟩ := processPair_eq_some hsome
  constructor
  · intro hb ha
    rw [mkChangeRec_tyre_change_lap] at hb ha
    refine ⟨meanQ (winVals (mergeAsof laps points)
        (max (pr.1.lap_end - 1) (lapsMin (mergeAsof laps points)))
        (min pr.1.lap_end (lapsMax (mergeAsof laps points)))),
      meanQ (winVals (mergeAsof laps points)
        (max (pr.1.lap_end + 2) (lapsMin (mergeAsof laps points)))
        (min (pr.1.lap_end + 5) (lapsMax (mergeAsof laps points)))), ?_, ?_, ?_⟩
    · rw [mkChangeRec_pos_before, winMean_of_ne_nil hb]
    · rw [mkChangeRec_pos_after, winMean_of_ne_nil ha]
    · rw [mkChangeRec_position_change, winMean_of_ne_nil hb, winMean_of_ne_nil ha]
  · rintro (h | h)
    · rw [mkChangeRec_tyre_change_lap] at h
      rw [mkChangeRec_position_change, winMean_of_nil h]
    · rw [mkChangeRec_tyre_change_lap] at h
      rw [mkChangeRec_position_change, winMean_of_nil h]
      cases winMean (mergeAsof laps points)
        (max (pr.1.lap_end - 1) (lapsMin (mergeAsof laps points)))
        (min pr.1.lap_end (lapsMax (mergeAsof laps points))) <;> rfl

/-- Witness for C4: a change at lap 2 with samples only for laps 1-2, so
the after window is empty and position_change is null. -/
theorem position_change_semantics_witness :
    wRec4 ∈ deriveDriver 9 noPosStints noPosLaps w4Points ∧
    wRec4.position_change = none := by
  have hmem : wRec4 ∈ deriveDriver 9 noPosStints noPosLaps w4Points := by
    have h : deriveDriver 9 noPosStints noPosLaps w4Points = [wRec4] := rfl
    rw [h]
    exact List.mem_singleton.mpr rfl
  refine ⟨hmem,
    (position_change_semantics 9 noPosStints noPosLaps w4Points wRec4 hmem).2 ?_⟩
  right
  rfl

/-- Claim C5: walking the stints of each driver in stint_number order, a
record is emitted for an adjacent pair only if its compound transition is
one of the nine SOFT/MEDIUM/HARD combinations; a pair with an invalid
compound label on either side produces no row. -/
theorem change_type_validity_filter (driver : Int) (stints : List Stint)
    (laps : List Lap) (points : List PosPoint) (rec : TyreChangeRec)
    (hmem : rec ∈ deriveDriver driver stints laps points) :
    rec.change_type ∈ validTypes ∧
    (∃ pr, pr ∈ adjPairs (sortByKey (fun s => s.stint_number) stints) ∧
      rec.change_type = pr.1.compound ++ "->" ++ pr.2.compound) ∧
    (∀ old new : Stint, old.compound ++ "->" ++ new.compound ∉ validTypes →
      processPair driver laps (mergeAsof laps points) old new = none) := by
  obtain ⟨pr, hpr, hsome⟩ := mem_deriveDriver.mp hmem
  obtain ⟨hv, hne, rfl⟩ := processPair_eq_some hsome
  refine ⟨hv, ⟨pr, hpr, rfl⟩, ?_⟩
  intro o n h
  simp [processPair, h]

/-- Witness for C5 at a concrete driver data slice. -/
theorem change_type_validity_filter_witness :
    wRec ∈ deriveDriver 7 wStints wLaps wPoints ∧ wRec.change_type ∈ validTypes := by
  have hmem : wRec ∈ deriveDriver 7 wStints wLaps wPoints := by
    have h : deriveDriver 7 wStints wLaps wPoints = [wRec] := rfl
    rw [h]
    exact List.mem_singleton.mpr rfl
  exact ⟨hmem, (change_type_validity_filter 7 wStints wLaps wPoints wRec hmem).1⟩

/-- Counterexample to claim C6: the results_clean projection of the
transform selects a fixed column list that does not contain the derived
status column, so the transformed Result rows do not carry a status. -/
theorem status_column_dropped : "status" ∉ resultsCleanColumns := by decide

/-- Claim C6 (amended): the transform derives a status on the intermediate
results frame by sequential overwrites with precedence
dsq over dns over dnf over finish (dnf -> dnf, then dns -> dns, then
dsq -> dsq), matching the nested-precedence reading of the spec and the
three concrete cases, but the status column is then omitted from the
results_clean column selection, so the transformed Result rows do not
carry it. -/
theorem result_status_precedence :
    (∀ rows : List ResultRow, statusColumn rows =
      rows.map (fun r => specStatus r.dnf r.dns r.dsq)) ∧
    (∀ a b c : Bool, deriveStatus a b c = specStatus a b c) ∧
    (∀ a b c : Bool,
      deriveStatus a b c ∈ (["finish", "dnf", "dns", "dsq"] : List String)) ∧
    deriveStatus true false true = "dsq" ∧
    deriveStatus true false false = "dnf" ∧
    deriveStatus false false false = "finish" ∧
    "status" ∉ resultsCleanColumns := by
  have h : ∀ a b c : Bool, deriveStatus a b c = specStatus a b c := by decide
  refine ⟨?_, h, by decide, rfl, rfl, rfl, by decide⟩
  intro rows
  simp only [statusColumn, h]

/-- Claim C7: driver_id assignment is a bijection over the distinct
whitespace-trimmed name triples: the id table lists exactly the distinct
trimmed triples in first-occurrence order (specFirstOccur), without
duplicates, with sequential ids 1..n, and the assignment is a pure function
of the input, so re-running it on identical input yields identical ids. -/
theorem driver_identity_assignment (rows : List DriverName) :
    (driversIdentity rows).map Prod.fst = specFirstOccur (rows.map trimName) ∧
    ((driversIdentity rows).map Prod.fst).Nodup ∧
    (driversIdentity rows).map Prod.snd =
      List.range' 1 (dedupFirst (rows.map trimName)).length ∧
    (∀ t, (∃ i, (t, i) ∈ driversIdentity rows) ↔ t ∈ rows.map trimName) ∧
    driversIdentity rows = driversIdentity rows := by
  have hlen : (List.range' 1 (dedupFirst (rows.map trimName)).length).length
      = (dedupFirst (rows.map trimName)).length := by simp
  have hfst : (driversIdentity rows).map Prod.fst = dedupFirst (rows.map trimName) := by
    show (List.zip _ _).map Prod.fst = _
    exact List.map_fst_zip _ _ hlen.ge
  have hsnd : (driversIdentity rows).map Prod.snd =
      List.range' 1 (dedupFirst (rows.map trimName)).length := by
    show (List.zip _ _).map Prod.snd = _
    exact List.map_snd_zip _ _ hlen.le
  refine ⟨?_, ?_, hsnd, ?_, rfl⟩
  · rw [hfst, specFirstOccur_eq_dedupFirst]
  · rw [hfst]
    exact nodup_dedupFirst _
  · intro t
    constructor
    · rintro ⟨i, hi⟩
      exact mem_dedupFirst.mp (List.of_mem_zip hi).1
    · intro ht
      have ht2 : t ∈ (driversIdentity rows).map Prod.fst := by
        rw [hfst]
        exact mem_dedupFirst.mpr ht
      obtain ⟨⟨a, i⟩, hp, rfl⟩ := List.mem_map.mp ht2
      exact ⟨i, hp⟩

/-- Witness for C7 at a concrete driver list with a duplicate trimmed
triple. -/
theorem driver_identity_assignment_witness :
    (driversIdentity wNames).map Prod.fst = specFirstOccur (wNames.map trimName) ∧
    (driversIdentity wNames).map Prod.snd =
      List.range' 1 (dedupFirst (wNames.map trimName)).length :=
  ⟨(driver_identity_assignment wNames).1, (driver_identity_assignment wNames).2.2.1⟩

/-- Claim C9: when reading the existing primary keys of a table fails,
safe_append treats the table as having no existing keys and keeps every
incoming row as new instead of aborting (the exception handler yields an
empty key frame, so nothing is filtered out). -/
theorem safe_append_read_failure_appends_all {Row K : Type} [DecidableEq K]
    (key : Row → K) (e : String) (df : List Row) :
    existingKeysOf (Except.error e : Except String (List K)) = [] ∧
    safeAppendWithRead key (Except.error e) df = df := by
  refine ⟨rfl, ?_⟩
  simp [safeAppendWithRead, safeAppendNewRows, existingKeysOf]

/-- Claim C10: when every upstream race session_key is already present,
update_f1_data returns before performing any write: the database value is
unchanged (so no table, including tyre_changes, is touched) and the
tyre-change derivation subprocess is not invoked. -/
theorem update_early_return_no_writes {δ : Type} (getExisting : δ → List Int)
    (loadAndAppend : δ → List Int → δ) (recomputeTyreChanges : δ → δ)
    (db : δ) (upstreamRaceKeys : List Int)
    (h : ∀ k ∈ upstreamRaceKeys, k ∈ getExisting db) :
    updateF1Data getExisting loadAndAppend recomputeTyreChanges db
      upstreamRaceKeys = { db := db, ranTyreDeriver := false } := by
  have hnew : getNewRace upstreamRaceKeys (getExisting db) = [] := by
    refine List.filter_eq_nil_iff.mpr ?_
    intro k hk
    simp [h k hk]
  simp [updateF1Data, hnew]

/-- Witness for C10 at a concrete database value. -/
theorem update_early_return_no_writes_witness :
    updateF1Data (fun db : List Int => db) (fun db ks => db ++ ks)
        (fun db => db) [5, 6] [5]
      = { db := [5, 6], ranTyreDeriver := false } :=
  update_early_return_no_writes (fun db : List Int => db)
    (fun db ks => db ++ ks) (fun db => db) [5, 6] [5] (by decide)

/-- Claim C8: the incremental update is idempotent on primary-keyed tables:
safe_append keeps only rows whose key is absent, never modifies the
existing prefix of the table, appending the same frame twice adds nothing
the second time, and a run with no new upstream race sessions (twice or
once) leaves the database unchanged. -/
theorem incremental_append_idempotent {δ Row K : Type} [DecidableEq K]
    (key : Row → K) (existing : List K) (df table : List Row)
    (getExisting : δ → List Int) (loadAndAppend : δ → List Int → δ)
    (recomputeTyreChanges : δ → δ) (db : δ) (upstreamRaceKeys : List Int)
    (h : ∀ k ∈ upstreamRaceKeys, k ∈ getExisting db) :
    (∀ r ∈ safeAppendNewRows key existing df, key r ∉ existing) ∧
    (safeAppendTable key table df).take table.length = table ∧
    safeAppendTable key (safeAppendTable key table df) df
      = safeAppendTable key table df ∧
    updateF1Data getExisting loadAndAppend recomputeTyreChanges db
      upstreamRaceKeys = { db := db, ranTyreDeriver := false } ∧
    updateF1Data getExisting loadAndAppend recomputeTyreChanges
      (updateF1Data getExisting loadAndAppend recomputeTyreChanges db
        upstreamRaceKeys).db upstreamRaceKeys
      = { db := db, ranTyreDeriver := false } := by
  have hnew : getNewRace upstreamRaceKeys (getExisting db) = [] := by
    refine List.filter_eq_nil_iff.mpr ?_
    intro k hk
    simp [h k hk]
  have hrun : updateF1Data getExisting loadAndAppend recomputeTyreChanges db
      upstreamRaceKeys = { db := db, ranTyreDeriver := false } := by
    simp [updateF1Data, hnew]
  refine ⟨?_, ?_, ?_, hrun, ?_⟩
  · intro r hr
    have := (List.mem_filter.mp hr).2
    simpa using this
  · exact List.take_left _ _
  · have h2 : safeAppendNewRows key
        ((safeAppendTable key table df).map key) df = [] := by
      refine List.filter_eq_nil_iff.mpr ?_
      intro r hr
      simp only [decide_eq_true_eq]
      intro hcon
      apply hcon
      show key r ∈ (table ++ safeAppendNewRows key (table.map key) df).map key
      rw [List.map_append, List.mem_append]
      by_cases hk : key r ∈ table.map key
      · exact Or.inl hk
      · refine Or.inr (List.mem_map.mpr ⟨r, ?_, rfl⟩)
        exact List.mem_filter.mpr ⟨hr, by simpa using hk⟩
    calc safeAppendTable key (safeAppendTable key table df) df
        = safeAppendTable key table df ++ safeAppendNewRows key
            ((safeAppendTable key table df).map key) df := rfl
      _ = safeAppendTable key table df := by rw [h2, List.append_nil]
  · rw [hrun]
    simp [updateF1Data, hnew]

/-- Witness for C8 at concrete tables and database values. -/
theorem incremental_append_idempotent_witness :
    safeAppendTable (fun r : Int × Int => r.1)
        (safeAppendTable (fun r : Int × Int => r.1) [(1, 10)] [(1, 11), (2, 22)])
        [(1, 11), (2, 22)]
      = safeAppendTable (fun r : Int × Int => r.1) [(1, 10)] [(1, 11), (2, 22)] ∧
    updateF1Data (fun db : List Int => db) (fun db ks => db ++ ks)
        (fun db => db) [101, 102] [101]
      = { db := [101, 102], ranTyreDeriver := false } :=
  ⟨(incremental_append_idempotent (fun r : Int × Int => r.1) []
      [(1, 11), (2, 22)] [(1, 10)] (fun db : List Int => db)
      (fun db ks => db ++ ks) (fun db => db) [101, 102] [101]
      (by decide)).2.2.1,
   (incremental_append_idempotent (fun r : Int × Int => r.1) []
      [(1, 11), (2, 22)] [(1, 10)] (fun db : List Int => db)
      (fun db ks => db ++ ks) (fun db => db) [101, 102] [101]
      (by decide)).2.2.2.1⟩
